import Mathlib

/-!
Verification development for the session/state-management layer of the
swift-ale Arcade-Learning-Environment binding.  The repository ships only
the C header `Sources/CArcadeLearningEnvironment/ale.h`, which declares the
operation surface (session lifecycle, configuration getters/setters,
stepping, frame counters, action sets, observation buffers, snapshot
clone/restore, and snapshot serialization).  The implementations live in
the external ALE engine, so the behaviour of every operation is modelled
here from the specification, keeping the header's names and signatures
wherever Lean allows.  The one place the header itself documents behaviour
is the comment on `encodeState`: the serialized stream may contain interior
NUL bytes and `encodeState` "simply memcpys bytes into the buffer", so an
undersized buffer is overrun, not reported.
-/

namespace ALE

/-- Equality of fallible results is decidable when both components have
decidable equality; this lets concrete runs of the model be checked by
evaluation. -/
instance {ε α : Type} [DecidableEq ε] [DecidableEq α] :
    DecidableEq (Except ε α) := fun x y =>
  match x, y with
  | .ok a, .ok b => decidable_of_iff (a = b) (by simp)
  | .error a, .error b => decidable_of_iff (a = b) (by simp)
  | .ok _, .error _ => isFalse (fun hc => Except.noConfusion hc)
  | .error _, .ok _ => isFalse (fun hc => Except.noConfusion hc)

/-- Bytes of the serialized state and of the observation buffers. -/
abbrev Byte := Fin 256

/-- Truncate a natural number to one byte. -/
def byteOf (n : Nat) : Byte := ⟨n % 256, Nat.mod_lt n (by decide)⟩

/-- Modelled from the spec: the error taxonomy of section 7. -/
inductive ALEError where
  | NoCartridgeLoaded
  | InvalidCartridge
  | IllegalAction
  | InvalidMode
  | InvalidDifficulty
  | TypeMismatch
  | NotFound
  | BufferTooSmall
  | MalformedSnapshot
  | SnapshotKindMismatch
  | IncompatibleCartridge
  | UseAfterRelease
  deriving DecidableEq, Repr

/-- Modelled from the spec: a snapshot is either game-only or full-system,
two distinct variants that are never mixed. -/
inductive SnapshotKind where
  | gameOnly
  | fullSystem
  deriving DecidableEq, Repr

/-- Modelled from the spec: an `ALEState` snapshot (header type `ALEState`)
is an immutable capture consisting of its kind, the checksum identifying
the cartridge it was captured under, and an opaque byte-exact payload.
Equality is byte-for-byte equality of the parts. -/
structure ALEState where
  kind : SnapshotKind
  cart : Byte
  payload : List Byte
  deriving DecidableEq, Repr

/-- One-byte checksum of a cartridge image (`Fin 256` addition wraps). -/
def checksum (rom : List Byte) : Byte := rom.foldl (· + ·) 0

/-- Magic byte opening every serialized snapshot. -/
def snapshotMagic : Byte := 161

/-- Format version byte embedded in every serialized snapshot. -/
def formatVersion : Byte := 1

/-- Serialized tag of a snapshot kind. -/
def kindByte : SnapshotKind → Byte
  | .gameOnly => 0
  | .fullSystem => 1

/-- Parse a snapshot-kind tag byte. -/
def kindOfByte (k : Byte) : Option SnapshotKind :=
  if k = 0 then some .gameOnly
  else if k = 1 then some .fullSystem
  else none

/-- Modelled from the spec: `encodeState` serializes a snapshot to a raw
byte stream that embeds self-describing metadata (magic byte, format
version, snapshot kind, cartridge checksum) followed by the payload.
Per the header comment the stream may contain interior NUL bytes. -/
def encodeState (s : ALEState) : List Byte :=
  snapshotMagic :: formatVersion :: kindByte s.kind :: s.cart :: s.payload

/-- Modelled from the spec: `encodeStateLen` returns the exact number of
bytes `encodeState` produces: four metadata bytes plus the payload. -/
def encodeStateLen (s : ALEState) : Nat := 4 + s.payload.length

/-- Modelled from the spec: `decodeState` parses a byte stream back into a
snapshot, rejecting any stream whose magic byte, format-version byte or
kind tag does not match (`MalformedSnapshot`); it is a total function and
never misinterprets a stream with a bad tag. -/
def decodeState (b : List Byte) : Except ALEError ALEState :=
  match b with
  | m :: v :: k :: c :: rest =>
      if m = snapshotMagic ∧ v = formatVersion then
        match kindOfByte k with
        | some kd => .ok ⟨kd, c, rest⟩
        | none => .error .MalformedSnapshot
      else .error .MalformedSnapshot
  | _ => .error .MalformedSnapshot

/-- Decoding inverts encoding, byte-for-byte, for every snapshot. -/
theorem decode_encode (s : ALEState) : decodeState (encodeState s) = .ok s := by
  cases s with
  | mk kd c p => cases kd <;> simp [encodeState, decodeState, kindByte, kindOfByte,
      snapshotMagic, formatVersion]

/-- The declared encoding length is the exact length of the encoding. -/
theorem encodeStateLen_exact (s : ALEState) :
    encodeStateLen s = (encodeState s).length := by
  simp [encodeStateLen, encodeState]
  omega

/-- Modelled from the spec: the live state of the Console Emulation Core,
split into the game-logic portion (captured by `cloneState`) and the
engine-internal registers/memory that the full-system snapshot adds. -/
structure CoreState where
  game : List Byte
  sys : List Byte
  deriving DecidableEq, Repr

/-- Four little-endian bytes of a natural number. -/
def natLE4 (n : Nat) : List Byte :=
  [byteOf n, byteOf (n / 256), byteOf (n / 65536), byteOf (n / 16777216)]

/-- Read a natural number back from four little-endian bytes. -/
def natOfLE4 (b0 b1 b2 b3 : Byte) : Nat :=
  b0.val + 256 * b1.val + 65536 * b2.val + 16777216 * b3.val

theorem natOfLE4_natLE4 (n : Nat) (h : n < 4294967296) :
    natOfLE4 (byteOf n) (byteOf (n / 256)) (byteOf (n / 65536))
      (byteOf (n / 16777216)) = n := by
  simp [natOfLE4, byteOf]
  omega

/-- Modelled from the spec: the full-system payload serializes both core
portions, delimiting the game portion by an explicit length prefix. -/
def sysEncode (st : CoreState) : List Byte :=
  natLE4 st.game.length ++ st.game ++ st.sys

/-- Parse a full-system payload back into a core state. -/
def sysDecode (b : List Byte) : Option CoreState :=
  match b with
  | b0 :: b1 :: b2 :: b3 :: rest =>
      let L := natOfLE4 b0 b1 b2 b3
      if L ≤ rest.length then some ⟨rest.take L, rest.drop L⟩ else none
  | _ => none

theorem sysDecode_sysEncode (st : CoreState) (h : st.game.length < 4294967296) :
    sysDecode (sysEncode st) = some st := by
  simp only [sysEncode, sysDecode, natLE4, List.cons_append, List.nil_append]
  rw [natOfLE4_natLE4 _ h]
  have hle : st.game.length ≤ (st.game ++ st.sys).length := by simp
  rw [if_pos hle, List.take_left, List.drop_left]

/-- Modelled from the spec: the opaque Console Emulation Core collaborator.
Its dynamics are deterministic functions of the core state; the action,
mode and difficulty registries are fixed functions of the cartridge. -/
structure EmuCore where
  initc : List Byte → Int → CoreState
  stepc : CoreState → Int → CoreState × Int
  resetc : CoreState → CoreState
  terminalc : CoreState → Bool
  livesc : CoreState → Int
  screenc : CoreState → List Byte
  ramc : CoreState → List Byte
  legalc : List Byte → List Int
  minimalc : List Byte → List Int

/-- Modelled from the spec: a typed configuration entry
(string/int/bool/float; floats modelled as rationals). -/
inductive ConfigValue where
  | str (v : String)
  | int (v : Int)
  | bool (v : Bool)
  | float (v : Rat)
  deriving DecidableEq, Repr

/-- The type tag of a configuration value. -/
inductive ConfigType where
  | str
  | int
  | bool
  | float
  deriving DecidableEq, Repr

/-- Type tag carried by a configuration value. -/
def typeOf : ConfigValue → ConfigType
  | .str _ => .str
  | .int _ => .int
  | .bool _ => .bool
  | .float _ => .float

/-- Modelled from the spec: built-in defaults consulted when a key was
never set (`NotFound` is raised only when no default exists either). -/
def defaultsConfig : List (String × ConfigValue) :=
  [("random_seed", .int 0)]

/-- Modelled from the spec: the Session (header type `ALEInterface`) owns
the configuration store (last write wins, so newest entries are consed at
the front), the loaded cartridge image, the live core state, and the two
frame counters. -/
structure Session where
  config : List (String × ConfigValue)
  rom : Option (List Byte)
  core : Option CoreState
  frameNumber : Nat
  episodeFrameNumber : Nat
  deriving DecidableEq, Repr

/-- Modelled from the spec: `ALE_new` yields a session with an empty
configuration, no cartridge loaded and counters at zero. -/
def ALE_new : Session := ⟨[], none, none, 0, 0⟩

/-- Write one typed configuration entry (last write wins). -/
def setConfig (s : Session) (k : String) (v : ConfigValue) : Session :=
  { s with config := (k, v) :: s.config }

/-- Header `setString`. -/
def setString (s : Session) (k : String) (v : String) : Session :=
  setConfig s k (.str v)

/-- Header `setInt`. -/
def setInt (s : Session) (k : String) (v : Int) : Session :=
  setConfig s k (.int v)

/-- Header `setBool`. -/
def setBool (s : Session) (k : String) (v : Bool) : Session :=
  setConfig s k (.bool v)

/-- Header `setFloat`. -/
def setFloat (s : Session) (k : String) (v : Rat) : Session :=
  setConfig s k (.float v)

/-- Most recent entry for a key in the session's store, falling back to
the defaults table. -/
def lookupConfig (s : Session) (k : String) : Option ConfigValue :=
  match (s.config.find? (fun p => p.1 = k)).map (·.2) with
  | some v => some v
  | none => (defaultsConfig.find? (fun p => p.1 = k)).map (·.2)

/-- Modelled from the spec: the typed configuration read underlying the
header's `getString`/`getInt`/`getBool`/`getFloat`: the latest entry is
type-checked against the requested type, failing with `TypeMismatch` on a
wrong type and `NotFound` when the key is unset and has no default. -/
def queryConfig (s : Session) (k : String) (ty : ConfigType) :
    Except ALEError ConfigValue :=
  match lookupConfig s k with
  | some v => if typeOf v = ty then .ok v else .error .TypeMismatch
  | none => .error .NotFound

/-- Header `getString`, via the typed read. -/
def getString (s : Session) (k : String) : Except ALEError String :=
  match queryConfig s k .str with
  | .ok (.str v) => .ok v
  | .ok _ => .error .TypeMismatch
  | .error e => .error e

/-- Header `getInt`, via the typed read. -/
def getInt (s : Session) (k : String) : Except ALEError Int :=
  match queryConfig s k .int with
  | .ok (.int v) => .ok v
  | .ok _ => .error .TypeMismatch
  | .error e => .error e

/-- Header `getBool`, via the typed read. -/
def getBool (s : Session) (k : String) : Except ALEError Bool :=
  match queryConfig s k .bool with
  | .ok (.bool v) => .ok v
  | .ok _ => .error .TypeMismatch
  | .error e => .error e

/-- Header `getFloat`, via the typed read. -/
def getFloat (s : Session) (k : String) : Except ALEError Rat :=
  match queryConfig s k .float with
  | .ok (.float v) => .ok v
  | .ok _ => .error .TypeMismatch
  | .error e => .error e

/-- Seed consulted by `loadROM` (the `random_seed` configuration entry). -/
def seedOf (s : Session) : Int :=
  match queryConfig s "random_seed" .int with
  | .ok (.int v) => v
  | _ => 0

/-- Modelled from the spec: `loadROM` discards prior live state,
initializes a fresh core state from the cartridge image and the configured
seed, and resets both frame counters to zero; configuration persists. -/
def loadROM (E : EmuCore) (s : Session) (rom : List Byte) : Session :=
  { s with rom := some rom, core := some (E.initc rom (seedOf s)),
           frameNumber := 0, episodeFrameNumber := 0 }

/-- Outcome of one emulation step as a function of cartridge and core
state alone: validation against the legal-action set happens before the
core is advanced. -/
def actR (E : EmuCore) (rom : Option (List Byte)) (core : Option CoreState)
    (a : Int) : Except ALEError (CoreState × Int) :=
  match rom, core with
  | some r, some st =>
      if a ∈ E.legalc r then .ok (E.stepc st a) else .error .IllegalAction
  | _, _ => .error .NoCartridgeLoaded

/-- Session after one successful step: new core state, both frame
counters incremented by exactly one, everything else untouched. -/
def stepped (s : Session) (st : CoreState) : Session where
  config := s.config
  rom := s.rom
  core := some st
  frameNumber := s.frameNumber + 1
  episodeFrameNumber := s.episodeFrameNumber + 1

/-- Modelled from the spec: `act` validates the action, advances the core
by one unit, increments both frame counters by exactly one and returns the
reward; an invalid action fails with `IllegalAction` before any mutation. -/
def act (E : EmuCore) (s : Session) (a : Int) : Except ALEError (Session × Int) :=
  match actR E s.rom s.core a with
  | .ok (st, r) => .ok (stepped s st, r)
  | .error e => .error e

/-- Modelled from the spec: `reset_game` re-initializes the live state for
a new episode, resets the episode frame counter to zero, leaves the
cumulative frame counter untouched and preserves the configuration. -/
def reset_game (E : EmuCore) (s : Session) : Session :=
  { s with core := s.core.map E.resetc, episodeFrameNumber := 0 }

/-- Header `game_over`. -/
def game_over (E : EmuCore) (s : Session) : Bool :=
  match s.core with
  | some st => E.terminalc st
  | none => false

/-- Header `lives`. -/
def lives (E : EmuCore) (s : Session) : Int :=
  match s.core with
  | some st => E.livesc st
  | none => 0

/-- Header `getFrameNumber`. -/
def getFrameNumber (s : Session) : Nat := s.frameNumber

/-- Header `getEpisodeFrameNumber`. -/
def getEpisodeFrameNumber (s : Session) : Nat := s.episodeFrameNumber

/-- Header `getLegalActionSet`: the ordered legal-action sequence of the
loaded cartridge. -/
def getLegalActionSet (E : EmuCore) (s : Session) : Except ALEError (List Int) :=
  match s.rom with
  | some rom => .ok (E.legalc rom)
  | none => .error .NoCartridgeLoaded

/-- Header `getMinimalActionSet`. -/
def getMinimalActionSet (E : EmuCore) (s : Session) : Except ALEError (List Int) :=
  match s.rom with
  | some rom => .ok (E.minimalc rom)
  | none => .error .NoCartridgeLoaded

/-- Header `getScreen`: pure read of the screen buffer. -/
def getScreen (E : EmuCore) (s : Session) : Except ALEError (List Byte) :=
  match s.core with
  | some st => .ok (E.screenc st)
  | none => .error .NoCartridgeLoaded

/-- Header `getRAM`: pure read of the RAM contents. -/
def getRAM (E : EmuCore) (s : Session) : Except ALEError (List Byte) :=
  match s.core with
  | some st => .ok (E.ramc st)
  | none => .error .NoCartridgeLoaded

/-- Modelled from the spec: `cloneState` captures the game-logic portion
of the live state as a game-only snapshot; it is a pure read and returns
only the snapshot, leaving the session untouched. -/
def cloneState (s : Session) : Except ALEError ALEState :=
  match s.rom, s.core with
  | some rom, some st => .ok ⟨.gameOnly, checksum rom, st.game⟩
  | _, _ => .error .NoCartridgeLoaded

/-- Modelled from the spec: `cloneSystemState` captures the full system
state (game portion and engine internals) as a full-system snapshot; pure
read, session untouched. -/
def cloneSystemState (s : Session) : Except ALEError ALEState :=
  match s.rom, s.core with
  | some rom, some st => .ok ⟨.fullSystem, checksum rom, sysEncode st⟩
  | _, _ => .error .NoCartridgeLoaded

/-- Modelled from the spec: `restoreState` accepts only a game-only
snapshot (a full-system one fails with `SnapshotKindMismatch`), requires a
loaded cartridge matching the snapshot's checksum
(`IncompatibleCartridge` otherwise), and only then overwrites the game
portion of the live state — validation happens fully before mutation. -/
def restoreState (s : Session) (snap : ALEState) : Except ALEError Session :=
  match snap.kind with
  | .fullSystem => .error .SnapshotKindMismatch
  | .gameOnly =>
      match s.rom, s.core with
      | some rom, some st =>
          if snap.cart = checksum rom then
            .ok { s with core := some { st with game := snap.payload } }
          else .error .IncompatibleCartridge
      | _, _ => .error .NoCartridgeLoaded

/-- Modelled from the spec: `restoreSystemState` accepts only a
full-system snapshot (a game-only one fails with `SnapshotKindMismatch`),
checks cartridge compatibility, parses the payload
(`MalformedSnapshot` if it cannot be split back into a core state) and
overwrites the entire live state. -/
def restoreSystemState (s : Session) (snap : ALEState) : Except ALEError Session :=
  match snap.kind with
  | .gameOnly => .error .SnapshotKindMismatch
  | .fullSystem =>
      match s.rom with
      | some rom =>
          if snap.cart = checksum rom then
            match sysDecode snap.payload with
            | some st => .ok { s with core := some st }
            | none => .error .MalformedSnapshot
          else .error .IncompatibleCartridge
      | none => .error .NoCartridgeLoaded

/-- Caller-visible session after a `restoreState` call: on failure the
session's live state is left unchanged. -/
def restoreStateOr (s : Session) (snap : ALEState) : Session :=
  match restoreState s snap with
  | .ok s2 => s2
  | .error _ => s

/-- Caller-visible session after a `restoreSystemState` call: on failure
the session's live state is left unchanged. -/
def restoreSystemStateOr (s : Session) (snap : ALEState) : Session :=
  match restoreSystemState s snap with
  | .ok s2 => s2
  | .error _ => s

/-- Memory written by the header's `encodeState(state, buf, buf_len)`:
per the header comment it "simply memcpys bytes into the buffer", copying
the whole encoding regardless of the buffer's size, so when the buffer is
shorter than the encoding the copy runs past its end.  The result lists
the bytes of the region starting at the buffer after the call. -/
def encodeStateInto (snap : ALEState) (buf : List Byte) : List Byte :=
  encodeState snap ++ buf.drop (encodeState snap).length

/-- The call overruns the buffer exactly when the buffer is shorter than
the encoding (header comment: "it will be overrun"). -/
def encodeOverruns (snap : ALEState) (buf : List Byte) : Bool :=
  decide (buf.length < encodeStateLen snap)

/-- Stated from the spec's words, for comparison with the header's
documented behaviour: an `encode` that fails with `BufferTooSmall` when
given insufficient buffer space instead of truncating or overrunning. -/
def specEncodeChecked (snap : ALEState) (bufLen : Nat) :
    Except ALEError (List Byte) :=
  if bufLen < encodeStateLen snap then .error .BufferTooSmall
  else .ok (encodeState snap)

/-- Consuming the encoding the way C string functions size a buffer:
take bytes up to the first NUL (what `strlen` would measure). -/
def cStrTake (b : List Byte) : List Byte := b.takeWhile (fun x => x ≠ 0)

/-- Run a sequence of actions, threading the session through `act` and
leaving the session unchanged on a failing step. -/
def stepManyS (E : EmuCore) (s : Session) : List Int → Session
  | [] => s
  | a :: as =>
      match act E s a with
      | .ok (s2, _) => stepManyS E s2 as
      | .error _ => stepManyS E s as

/-- Rewards observed while running a sequence of actions (failing steps
produce no reward). -/
def trajRewards (E : EmuCore) (s : Session) : List Int → List Int
  | [] => []
  | a :: as =>
      match act E s a with
      | .ok (s2, r) => r :: trajRewards E s2 as
      | .error _ => trajRewards E s as

/-- Terminal flags observed after each successful step of a run. -/
def trajTerminals (E : EmuCore) (s : Session) : List Int → List Bool
  | [] => []
  | a :: as =>
      match act E s a with
      | .ok (s2, _) => game_over E s2 :: trajTerminals E s2 as
      | .error _ => trajTerminals E s as

/-- Rewards of a run started from a restored game-only snapshot (empty on
a failed restore). -/
def restoredTrajG (E : EmuCore) (s : Session) (snap : ALEState)
    (as : List Int) : List Int :=
  match restoreState s snap with
  | .ok s2 => trajRewards E s2 as
  | .error _ => []

/-- Rewards of a run started from a restored full-system snapshot. -/
def restoredTrajF (E : EmuCore) (s : Session) (snap : ALEState)
    (as : List Int) : List Int :=
  match restoreSystemState s snap with
  | .ok s2 => trajRewards E s2 as
  | .error _ => []

/-- Rewards of a run started by decoding a byte stream and restoring the
resulting game-only snapshot. -/
def restoredTrajGBytes (E : EmuCore) (s : Session) (b : List Byte)
    (as : List Int) : List Int :=
  match decodeState b with
  | .ok snap => restoredTrajG E s snap as
  | .error _ => []

/-- Rewards of a run started by decoding a byte stream and restoring the
resulting full-system snapshot. -/
def restoredTrajFBytes (E : EmuCore) (s : Session) (b : List Byte)
    (as : List Int) : List Int :=
  match decodeState b with
  | .ok snap => restoredTrajF E s snap as
  | .error _ => []

/-- Small concrete emulation core used to exercise the model on concrete
inputs: the game portion records the actions played, the system portion
records the seed, and two actions are legal. -/
def toyCore : EmuCore where
  initc := fun rom seed => ⟨rom.take 2, [byteOf seed.toNat]⟩
  stepc := fun st a => ({ st with game := byteOf a.toNat :: st.game }, a)
  resetc := fun st => { st with game := [] }
  terminalc := fun st => decide (3 ≤ st.game.length)
  livesc := fun _ => 1
  screenc := fun st => st.game
  ramc := fun st => st.sys
  legalc := fun _ => [0, 1]
  minimalc := fun _ => [0]

theorem act_ok_elim (E : EmuCore) (s : Session) (a : Int) (s2 : Session)
    (r : Int) (h : act E s a = .ok (s2, r)) :
    ∃ st, actR E s.rom s.core a = .ok (st, r) ∧ s2 = stepped s st := by
  unfold act at h
  cases hR : actR E s.rom s.core a with
  | error e => rw [hR] at h; simp at h
  | ok p =>
      obtain ⟨st, rr⟩ := p
      rw [hR] at h
      simp only [Except.ok.injEq, Prod.mk.injEq] at h
      exact ⟨st, by rw [h.2], h.1.symm⟩

theorem stepManyS_rom (E : EmuCore) :
    ∀ (as : List Int) (s : Session), (stepManyS E s as).rom = s.rom := by
  intro as
  induction as with
  | nil => intro s; rfl
  | cons a as ih =>
      intro s
      show (stepManyS E s (a :: as)).rom = s.rom
      unfold stepManyS
      cases hA : act E s a with
      | error e => exact ih s
      | ok p =>
          obtain ⟨s2, r⟩ := p
          obtain ⟨st, _, hs2⟩ := act_ok_elim E s a s2 r hA
          rw [ih s2, hs2]
          rfl

theorem trajRewards_congr (E : EmuCore) :
    ∀ (as : List Int) (s t : Session), s.rom = t.rom → s.core = t.core →
      trajRewards E s as = trajRewards E t as := by
  intro as
  induction as with
  | nil => intro s t _ _; rfl
  | cons a as ih =>
      intro s t hr hc
      have hR : actR E s.rom s.core a = actR E t.rom t.core a := by rw [hr, hc]
      show trajRewards E s (a :: as) = trajRewards E t (a :: as)
      unfold trajRewards act
      rw [hR]
      cases hA : actR E t.rom t.core a with
      | error e => exact ih s t hr hc
      | ok p =>
          obtain ⟨st, r⟩ := p
          exact congrArg (List.cons r) (ih (stepped s st) (stepped t st) hr rfl)

/-- Unfolding the kind-tag parser on an encoded tag. -/
theorem kindOfByte_kindByte (kd : SnapshotKind) :
    kindOfByte (kindByte kd) = some kd := by
  cases kd <;> decide

/-- A successfully parsed kind tag re-encodes to the same byte. -/
theorem kindByte_of_kindOfByte (k : Byte) (kd : SnapshotKind)
    (h : kindOfByte k = some kd) : kindByte kd = k := by
  unfold kindOfByte at h
  by_cases h0 : k = 0
  · rw [if_pos h0] at h
    cases h
    rw [h0]; rfl
  · rw [if_neg h0] at h
    by_cases h1 : k = 1
    · rw [if_pos h1] at h
      cases h
      rw [h1]; rfl
    · rw [if_neg h1] at h
      cases h

/-- C1: for every snapshot (game-only or full-system), decoding the
encoding yields the same snapshot byte-for-byte, and restoring from the
snapshot or from its decoded encoding yields identical subsequent step
results for any fixed action sequence. -/
theorem snapshot_roundtrip_exact :
    ∀ snap : ALEState, decodeState (encodeState snap) = Except.ok snap ∧
      ∀ (E : EmuCore) (s : Session) (as : List Int),
        restoredTrajGBytes E s (encodeState snap) as = restoredTrajG E s snap as ∧
        restoredTrajFBytes E s (encodeState snap) as = restoredTrajF E s snap as := by
  intro snap
  have h := decode_encode snap
  exact ⟨h, fun E s as => by simp [restoredTrajGBytes, restoredTrajFBytes, h]⟩

/-- C2 counterexample: with a buffer one byte shorter than the encoding,
the header-documented `encodeState` does not fail with `BufferTooSmall`:
it memcpys the whole encoding and overruns the buffer (the written region
is longer than the buffer), where the spec-worded checked encoder would
have returned `BufferTooSmall`. -/
theorem encode_undersized_overruns :
    encodeOverruns ⟨.gameOnly, 7, [3, 1, 4]⟩ (List.replicate 6 0) = true ∧
    (encodeStateInto ⟨.gameOnly, 7, [3, 1, 4]⟩ (List.replicate 6 0)).length >
      (List.replicate 6 (0 : Byte)).length ∧
    specEncodeChecked ⟨.gameOnly, 7, [3, 1, 4]⟩ 6 =
      .error .BufferTooSmall := by
  decide

/-- C2 amended: `encodeStateLen` returns the exact byte length of the
encoding; calling `encodeState` with a buffer of exactly that size writes
exactly that many bytes, while calling it with any smaller buffer does not
fail — per the header comment it overruns the buffer, still writing the
full encoding. -/
theorem encode_buffer_contract (snap : ALEState) (buf : List Byte) :
    encodeStateLen snap = (encodeState snap).length ∧
    (buf.length = encodeStateLen snap →
      encodeStateInto snap buf = encodeState snap ∧
      (encodeStateInto snap buf).length = buf.length) ∧
    (buf.length < encodeStateLen snap →
      (encodeStateInto snap buf).length = encodeStateLen snap ∧
      encodeOverruns snap buf = true) := by
  have hlen := encodeStateLen_exact snap
  refine ⟨hlen, ?_, ?_⟩
  · intro h
    have hdrop : buf.drop (encodeState snap).length = [] := by
      rw [List.drop_eq_nil_iff, ← hlen]
      omega
    constructor
    · rw [encodeStateInto, hdrop, List.append_nil]
    · rw [encodeStateInto, hdrop, List.append_nil, ← hlen, h]
  · intro h
    constructor
    · rw [encodeStateInto]
      simp only [List.length_append, List.length_drop]
      omega
    · simp only [encodeOverruns, decide_eq_true_eq]
      exact h

/-- C2 amended witness: a buffer of exactly the declared length is filled
with exactly the encoding; a one-byte-short buffer is written past its
end, the written region having the full encoding length. -/
theorem encode_buffer_contract_witness :
    encodeStateInto ⟨.gameOnly, 7, [3, 1, 4]⟩ (List.replicate 7 0) =
      encodeState ⟨.gameOnly, 7, [3, 1, 4]⟩ ∧
    (encodeStateInto ⟨.gameOnly, 7, [3, 1, 4]⟩ (List.replicate 6 0)).length =
      encodeStateLen ⟨.gameOnly, 7, [3, 1, 4]⟩ :=
  ⟨((encode_buffer_contract ⟨.gameOnly, 7, [3, 1, 4]⟩
      (List.replicate 7 0)).2.1 (by decide)).1,
   ((encode_buffer_contract ⟨.gameOnly, 7, [3, 1, 4]⟩
      (List.replicate 6 0)).2.2 (by decide)).1⟩

/-- C8 counterexample: an encoding produced under one cartridge is a
previously-produced encoding, so `decodeState` succeeds on it — it does
not fail with `MalformedSnapshot` as the claim asserts; the rejection for
a consumer holding a different cartridge happens at restore time, with
`IncompatibleCartridge`. -/
theorem decode_foreign_cartridge_ok :
    cloneSystemState (loadROM toyCore ALE_new [2, 3]) =
      .ok ⟨.fullSystem, 5, [2, 0, 0, 0, 2, 3, 0]⟩ ∧
    decodeState (encodeState ⟨.fullSystem, 5, [2, 0, 0, 0, 2, 3, 0]⟩) =
      .ok ⟨.fullSystem, 5, [2, 0, 0, 0, 2, 3, 0]⟩ ∧
    checksum [2, 3] ≠ checksum [9] ∧
    restoreSystemState (loadROM toyCore ALE_new [9])
      ⟨.fullSystem, 5, [2, 0, 0, 0, 2, 3, 0]⟩ =
      .error .IncompatibleCartridge := by
  decide

/-- C8 amended: `decodeState` is a total function that fails with
`MalformedSnapshot` exactly on byte sequences that are not
previously-produced encodings, the check going through the magic,
format-version and kind tags and not merely the length: two equal-length
streams differing only in the magic byte are decoded and rejected
respectively. -/
theorem decode_rejects_malformed :
    (∀ b : List Byte,
      (∃ snap : ALEState, encodeState snap = b ∧ decodeState b = .ok snap) ∨
      (decodeState b = .error .MalformedSnapshot ∧
        ¬ ∃ snap : ALEState, encodeState snap = b)) ∧
    (([161, 1, 0, 5, 7] : List Byte).length = ([160, 1, 0, 5, 7] : List Byte).length ∧
      decodeState [161, 1, 0, 5, 7] = .ok ⟨.gameOnly, 5, [7]⟩ ∧
      decodeState [160, 1, 0, 5, 7] = .error .MalformedSnapshot) := by
  constructor
  · intro b
    rcases b with _ | ⟨m, _ | ⟨v, _ | ⟨k, _ | ⟨c, rest⟩⟩⟩⟩
    · exact Or.inr ⟨rfl, by rintro ⟨snap, hsnap⟩; simp [encodeState] at hsnap⟩
    · exact Or.inr ⟨rfl, by rintro ⟨snap, hsnap⟩; simp [encodeState] at hsnap⟩
    · exact Or.inr ⟨rfl, by rintro ⟨snap, hsnap⟩; simp [encodeState] at hsnap⟩
    · exact Or.inr ⟨rfl, by rintro ⟨snap, hsnap⟩; simp [encodeState] at hsnap⟩
    · by_cases hm : m = snapshotMagic ∧ v = formatVersion
      · cases hk : kindOfByte k with
        | some kd =>
            refine Or.inl ⟨⟨kd, c, rest⟩, ?_, ?_⟩
            · simp [encodeState, hm.1, hm.2, kindByte_of_kindOfByte k kd hk]
            · simp [decodeState, hm.1, hm.2, hk]
        | none =>
            refine Or.inr ⟨by simp [decodeState, hm.1, hm.2, hk], ?_⟩
            rintro ⟨snap, hsnap⟩
            simp [encodeState] at hsnap
            obtain ⟨-, -, hkb, -⟩ := hsnap
            rw [← hkb, kindOfByte_kindByte] at hk
            cases hk
      · refine Or.inr ⟨by simp [decodeState, hm], ?_⟩
        rintro ⟨snap, hsnap⟩
        simp [encodeState] at hsnap
        exact hm ⟨hsnap.1.symm, hsnap.2.1.symm⟩
  · decide

/-- C10: the serialized stream is length-delimited and not NUL-terminated:
decoding via the exact `encodeStateLen` length reproduces every snapshot,
while an encoding with an interior NUL byte, when sized the way `strlen`
would size a C string, is truncated and no longer decodes to the original
snapshot. -/
theorem stream_length_delimited :
    (∀ snap : ALEState, decodeState (encodeState snap) = Except.ok snap ∧
      encodeStateLen snap = (encodeState snap).length) ∧
    ((0 : Byte) ∈ encodeState ⟨.gameOnly, 7, [3, 1, 4]⟩ ∧
      cStrTake (encodeState ⟨.gameOnly, 7, [3, 1, 4]⟩) ≠
        encodeState ⟨.gameOnly, 7, [3, 1, 4]⟩ ∧
      decodeState (cStrTake (encodeState ⟨.gameOnly, 7, [3, 1, 4]⟩)) ≠
        Except.ok (⟨.gameOnly, 7, [3, 1, 4]⟩ : ALEState)) := by
  constructor
  · intro snap
    exact ⟨decode_encode snap, encodeStateLen_exact snap⟩
  · decide

/-- C3: two fresh Sessions given the same cartridge, the same
configuration and the same action sequence produce identical reward
sequences, identical terminal transitions, and identical final screen and
RAM contents — the session layer adds no nondeterminism over the
deterministic core. -/
theorem determinism (E : EmuCore) (cfg : List (String × ConfigValue))
    (rom : List Byte) (as : List Int) (s1 s2 : Session)
    (h1 : s1 = loadROM E (cfg.foldl (fun s kv => setConfig s kv.1 kv.2) ALE_new) rom)
    (h2 : s2 = loadROM E (cfg.foldl (fun s kv => setConfig s kv.1 kv.2) ALE_new) rom) :
    trajRewards E s1 as = trajRewards E s2 as ∧
    trajTerminals E s1 as = trajTerminals E s2 as ∧
    getScreen E (stepManyS E s1 as) = getScreen E (stepManyS E s2 as) ∧
    getRAM E (stepManyS E s1 as) = getRAM E (stepManyS E s2 as) := by
  subst h1
  subst h2
  exact ⟨rfl, rfl, rfl, rfl⟩

/-- C3 witness: two fresh toy-core sessions on the same cartridge with
the same empty configuration and the same two actions agree on every
observable. -/
theorem determinism_witness :
    trajRewards toyCore (loadROM toyCore ALE_new [2, 3]) [0, 1] =
      trajRewards toyCore (loadROM toyCore ALE_new [2, 3]) [0, 1] ∧
    trajTerminals toyCore (loadROM toyCore ALE_new [2, 3]) [0, 1] =
      trajTerminals toyCore (loadROM toyCore ALE_new [2, 3]) [0, 1] ∧
    getScreen toyCore (stepManyS toyCore (loadROM toyCore ALE_new [2, 3]) [0, 1]) =
      getScreen toyCore (stepManyS toyCore (loadROM toyCore ALE_new [2, 3]) [0, 1]) ∧
    getRAM toyCore (stepManyS toyCore (loadROM toyCore ALE_new [2, 3]) [0, 1]) =
      getRAM toyCore (stepManyS toyCore (loadROM toyCore ALE_new [2, 3]) [0, 1]) :=
  determinism toyCore [] [2, 3] [0, 1] _ _ rfl rfl

/-- Concrete session used by the witnesses: toy core, cartridge [2, 3]. -/
def sessW : Session := loadROM toyCore ALE_new [2, 3]

/-- C4: cloning captures the live state without mutating the Session (the
clone operations return only the snapshot value), the snapshot is isolated
from later steps on the original Session (restoring it after any action
sequence on the original still reproduces the capture-time core state),
and restoring it into a compatible Session reproduces the capture-time
state exactly, with identical subsequent step results. -/
theorem clone_restore_isolated (E : EmuCore) (s s2 : Session)
    (rom : List Byte) (st st2 : CoreState) (acts as2 : List Int)
    (h1 : s.rom = some rom) (h2 : s.core = some st)
    (hlen : st.game.length < 4294967296)
    (h3 : s2.rom = some rom) (h4 : s2.core = some st2) :
    cloneState s = .ok ⟨.gameOnly, checksum rom, st.game⟩ ∧
    cloneSystemState s = .ok ⟨.fullSystem, checksum rom, sysEncode st⟩ ∧
    (∃ s2g, restoreState s2 ⟨.gameOnly, checksum rom, st.game⟩ = .ok s2g ∧
      s2g.core = some ⟨st.game, st2.sys⟩) ∧
    (∃ s2f, restoreSystemState s2 ⟨.fullSystem, checksum rom, sysEncode st⟩ =
        .ok s2f ∧ s2f.core = some st ∧
      trajRewards E s2f as2 = trajRewards E s as2) ∧
    (∃ s3, restoreSystemState (stepManyS E s acts)
        ⟨.fullSystem, checksum rom, sysEncode st⟩ = .ok s3 ∧
      s3.core = some st) := by
  refine ⟨by simp [cloneState, h1, h2], by simp [cloneSystemState, h1, h2],
    ?_, ?_, ?_⟩
  · refine ⟨{ s2 with core := some ⟨st.game, st2.sys⟩ }, ?_, rfl⟩
    simp [restoreState, h3, h4]
  · refine ⟨{ s2 with core := some st }, ?_, rfl, ?_⟩
    · simp [restoreSystemState, h3, sysDecode_sysEncode st hlen]
    · exact trajRewards_congr E as2 _ s (by rw [h3, h1]) (by rw [h2])
  · have hrom : (stepManyS E s acts).rom = some rom := by
      rw [stepManyS_rom]
      exact h1
    refine ⟨{ stepManyS E s acts with core := some st }, ?_, rfl⟩
    simp [restoreSystemState, hrom, sysDecode_sysEncode st hlen]

/-- C4 witness: on the toy core, both clones succeed, restoring the
game-only snapshot overwrites the game portion, restoring the full-system
snapshot reproduces the capture-time core state with identical rewards,
and restoring after a further step on the original still reproduces it. -/
theorem clone_restore_isolated_witness :
    cloneState sessW = .ok ⟨.gameOnly, 5, [2, 3]⟩ ∧
    cloneSystemState sessW = .ok ⟨.fullSystem, 5, [2, 0, 0, 0, 2, 3, 0]⟩ ∧
    (∃ s2g, restoreState sessW ⟨.gameOnly, 5, [2, 3]⟩ = .ok s2g ∧
      s2g.core = some ⟨[2, 3], [0]⟩) ∧
    (∃ s2f, restoreSystemState sessW ⟨.fullSystem, 5, [2, 0, 0, 0, 2, 3, 0]⟩ =
        .ok s2f ∧ s2f.core = some ⟨[2, 3], [0]⟩ ∧
      trajRewards toyCore s2f [1] = trajRewards toyCore sessW [1]) ∧
    (∃ s3, restoreSystemState (stepManyS toyCore sessW [0])
        ⟨.fullSystem, 5, [2, 0, 0, 0, 2, 3, 0]⟩ = .ok s3 ∧
      s3.core = some ⟨[2, 3], [0]⟩) :=
  clone_restore_isolated toyCore sessW sessW [2, 3] ⟨[2, 3], [0]⟩
    ⟨[2, 3], [0]⟩ [0] [1] rfl rfl (by decide) rfl rfl

/-- C5: every successful step increments both the cumulative and the
episode frame counter by exactly one (so the cumulative counter never
decreases across a step), while `reset_game` zeroes the episode counter,
leaves the cumulative counter untouched and preserves the configuration. -/
theorem frame_counter_step_reset (E : EmuCore) (s : Session) (a : Int)
    (s2 : Session) (r : Int) (h : act E s a = .ok (s2, r)) :
    getFrameNumber s2 = getFrameNumber s + 1 ∧
    getEpisodeFrameNumber s2 = getEpisodeFrameNumber s + 1 ∧
    getFrameNumber s ≤ getFrameNumber s2 ∧
    getEpisodeFrameNumber (reset_game E s2) = 0 ∧
    getFrameNumber (reset_game E s2) = getFrameNumber s2 ∧
    (reset_game E s2).config = s2.config := by
  obtain ⟨st, -, hs2⟩ := act_ok_elim E s a s2 r h
  subst hs2
  simp [stepped, reset_game, getFrameNumber, getEpisodeFrameNumber]

/-- C5 witness: one legal toy-core step takes both counters from 0 to 1,
and a reset then zeroes only the episode counter. -/
theorem frame_counter_step_reset_witness :
    getFrameNumber (stepped sessW ⟨[0, 2, 3], [0]⟩) = getFrameNumber sessW + 1 ∧
    getEpisodeFrameNumber (stepped sessW ⟨[0, 2, 3], [0]⟩) =
      getEpisodeFrameNumber sessW + 1 ∧
    getFrameNumber sessW ≤ getFrameNumber (stepped sessW ⟨[0, 2, 3], [0]⟩) ∧
    getEpisodeFrameNumber (reset_game toyCore (stepped sessW ⟨[0, 2, 3], [0]⟩)) = 0 ∧
    getFrameNumber (reset_game toyCore (stepped sessW ⟨[0, 2, 3], [0]⟩)) =
      getFrameNumber (stepped sessW ⟨[0, 2, 3], [0]⟩) ∧
    (reset_game toyCore (stepped sessW ⟨[0, 2, 3], [0]⟩)).config =
      (stepped sessW ⟨[0, 2, 3], [0]⟩).config :=
  frame_counter_step_reset toyCore sessW 0 (stepped sessW ⟨[0, 2, 3], [0]⟩) 0
    (by decide)

/-- C6: with a cartridge loaded, `act` fails with `IllegalAction` exactly
when the action is not in the legal-action sequence reported by
`getLegalActionSet`, and succeeds on every legal action, advancing the
core by one step and the counters by one. -/
theorem action_validation (E : EmuCore) (s : Session) (rom : List Byte)
    (st : CoreState) (a : Int)
    (h1 : s.rom = some rom) (h2 : s.core = some st) :
    getLegalActionSet E s = .ok (E.legalc rom) ∧
    (act E s a = .error .IllegalAction ↔ a ∉ E.legalc rom) ∧
    (a ∈ E.legalc rom →
      act E s a = .ok (stepped s (E.stepc st a).1, (E.stepc st a).2)) := by
  refine ⟨by simp [getLegalActionSet, h1], ?_, ?_⟩
  · unfold act actR
    rw [h1, h2]
    rcases hp : E.stepc st a with ⟨st2, r⟩
    by_cases hmem : a ∈ E.legalc rom
    · simp [hmem, hp]
    · simp [hmem]
  · intro hmem
    unfold act actR
    rw [h1, h2]
    rcases hp : E.stepc st a with ⟨st2, r⟩
    simp [hmem, hp]

/-- C6 witness: on the toy core the legal set is [0, 1]; action 5 fails
with `IllegalAction` precisely because it is not in that set, and any
member of the set succeeds. -/
theorem action_validation_witness :
    getLegalActionSet toyCore sessW = .ok [0, 1] ∧
    (act toyCore sessW 5 = .error .IllegalAction ↔ (5 : Int) ∉ ([0, 1] : List Int)) ∧
    ((5 : Int) ∈ ([0, 1] : List Int) →
      act toyCore sessW 5 =
        .ok (stepped sessW (toyCore.stepc ⟨[2, 3], [0]⟩ 5).1,
          (toyCore.stepc ⟨[2, 3], [0]⟩ 5).2)) :=
  action_validation toyCore sessW [2, 3] ⟨[2, 3], [0]⟩ 5 rfl rfl

/-- C7: `restoreState` given any full-system snapshot and
`restoreSystemState` given any game-only snapshot both fail with
`SnapshotKindMismatch`, on every session, and the failing call leaves the
caller-visible live state unchanged. -/
theorem snapshot_kind_safety (s : Session) (G F : ALEState)
    (hG : G.kind = .gameOnly) (hF : F.kind = .fullSystem) :
    restoreState s F = .error .SnapshotKindMismatch ∧
    restoreSystemState s G = .error .SnapshotKindMismatch ∧
    restoreStateOr s F = s ∧
    restoreSystemStateOr s G = s := by
  refine ⟨by simp [restoreState, hF], by simp [restoreSystemState, hG], ?_, ?_⟩
  · simp [restoreStateOr, restoreState, hF]
  · simp [restoreSystemStateOr, restoreSystemState, hG]

/-- C7 witness: the two kind-mismatched restores fail on a fresh session
and leave it unchanged. -/
theorem snapshot_kind_safety_witness :
    restoreState ALE_new ⟨.fullSystem, 0, []⟩ = .error .SnapshotKindMismatch ∧
    restoreSystemState ALE_new ⟨.gameOnly, 0, []⟩ = .error .SnapshotKindMismatch ∧
    restoreStateOr ALE_new ⟨.fullSystem, 0, []⟩ = ALE_new ∧
    restoreSystemStateOr ALE_new ⟨.gameOnly, 0, []⟩ = ALE_new :=
  snapshot_kind_safety ALE_new ⟨.gameOnly, 0, []⟩ ⟨.fullSystem, 0, []⟩ rfl rfl

/-- C9: the typed configuration read fails with `TypeMismatch` when the
key's latest entry (or applicable default) carries a different type than
requested, fails with `NotFound` when the key was never set and has no
default, and never coerces: a successful read returns exactly the stored
value, whose type is the requested one. -/
theorem query_type_checked (s : Session) (k : String) (ty : ConfigType) :
    (∀ v, lookupConfig s k = some v → typeOf v ≠ ty →
      queryConfig s k ty = .error .TypeMismatch) ∧
    (lookupConfig s k = none → queryConfig s k ty = .error .NotFound) ∧
    (∀ v, queryConfig s k ty = .ok v →
      typeOf v = ty ∧ lookupConfig s k = some v) := by
  refine ⟨?_, ?_, ?_⟩
  · intro v hv hty
    simp [queryConfig, hv, hty]
  · intro hv
    simp [queryConfig, hv]
  · intro v hv
    cases hl : lookupConfig s k with
    | none => simp [queryConfig, hl] at hv
    | some w =>
        by_cases hty : typeOf w = ty
        · have hq : queryConfig s k ty = .ok w := by simp [queryConfig, hl, hty]
          rw [hq] at hv
          injection hv with hw
          subst hw
          exact ⟨hty, rfl⟩
        · simp [queryConfig, hl, hty] at hv

/-- C9 witness: with the key "alpha" last set as an int, reading it as a
string fails with `TypeMismatch`, reading the unset key "beta" fails with
`NotFound`, and a successful int read returns exactly the stored entry. -/
theorem query_type_checked_witness :
    queryConfig (setInt ALE_new "alpha" 1) "alpha" .str =
      .error .TypeMismatch ∧
    queryConfig (setInt ALE_new "alpha" 1) "beta" .int = .error .NotFound ∧
    (typeOf (.int 1) = .int ∧
      lookupConfig (setInt ALE_new "alpha" 1) "alpha" = some (.int 1)) :=
  ⟨(query_type_checked (setInt ALE_new "alpha" 1) "alpha" .str).1
      (.int 1) (by decide) (by decide),
   (query_type_checked (setInt ALE_new "alpha" 1) "beta" .int).2.1 (by decide),
   (query_type_checked (setInt ALE_new "alpha" 1) "alpha" .int).2.2
      (.int 1) (by decide)⟩

end ALE
